import Mathlib

/-!
Verification of the moderation decision engine in `src/main.py`
(`rule_hit`, `naive_toxicity_score`, `decide` and the three rule sets).

Modelling conventions:
* Text is a Lean `String` (Python `str`); character-level operations
  (`str.lower`, `str.isupper`, `\b` word characters, `\d`, `\s`, `.`)
  are modelled at ASCII precision, which covers every pattern in the
  rule sets.
* Python `re` patterns are embedded as an explicit regex AST `RE` with
  an executable positional matcher.  `re.search` existence semantics is
  modelled: a pattern hits iff some substring starting at some position
  matches.  `(?i)` literals are modelled by comparing lowercased input
  characters; `(?i)` character classes accept a character iff its
  lowercase form is listed (or the listed non-letter itself).
* Python floats are modelled as exact rationals.  Every toxicity value
  is a subset sum of \x7b0.05, 0.1, 0.1, 0.5, 0.4\x7d clamped at 1.0, and an
  exhaustive check of the 32 subset sums shows IEEE double arithmetic
  and exact rational arithmetic agree on every comparison against the
  thresholds 0.40, 0.70 and 0.90, so the rational model is
  decision-faithful.
* The two `SLUR_PATTERNS` sources, `(?i)\b[k*]w[a@]***\b` and
  `(?i)\b[jg]***[t7]\b`, are rejected by Python `re.compile`
  ("multiple repeat": a quantifier applied to a quantified expression),
  so the module as shipped raises `re.error` at import time.  The model
  keeps the exact source strings as labels and gives the two regexes
  the nearest well-formed semantics, collapsing the stacked repeats to
  a single `*` (`[a@]***` read as `[a@]*`, `[jg]***` as `[jg]*`).  No
  theorem below depends on which texts the slur regexes accept, only on
  their labels and on the shared matcher structure.
-/

namespace Main

/-- ASCII model of Python `str.lower` applied to one character:
code points 65-90 (A-Z) shift by 32 to 97-122 (a-z). -/
def pyLower (c : Char) : Char :=
  if 65 ≤ c.toNat ∧ c.toNat ≤ 90 then Char.ofNat (c.toNat + 32) else c

/-- ASCII model of Python `c.isupper()` for a single character. -/
def pyIsUpper (c : Char) : Bool :=
  65 ≤ c.toNat && c.toNat ≤ 90

/-- Character class `\d` at ASCII precision: code points 48-57. -/
def digitCls (c : Char) : Bool :=
  48 ≤ c.toNat && c.toNat ≤ 57

/-- Character class `[A-Za-z]`. -/
def alphaCls (c : Char) : Bool :=
  (65 ≤ c.toNat && c.toNat ≤ 90) || (97 ≤ c.toNat && c.toNat ≤ 122)

/-- ASCII word character, the class `\w` underlying the `\b`
assertion: a letter, a digit or the underscore (code point 95). -/
def isWordChar (c : Char) : Bool :=
  alphaCls c || digitCls c || c.toNat == 95

/-- ASCII model of the Python regex class `\s`: space, tab, newline,
vertical tab, form feed, carriage return. -/
def isPySpace (c : Char) : Bool :=
  c.toNat == 32 || c.toNat == 9 || c.toNat == 10 || c.toNat == 11
    || c.toNat == 12 || c.toNat == 13

/-- Regex abstract syntax: the fragment used by the rule sets.
`cls` is a single character from a class, `starCls` is Kleene star of a
class (every star in the rule sets has a one-character body), `wordB`
is the zero-width `\b` assertion. -/
inductive RE where
  | eps : RE
  | cls (φ : Char → Bool) : RE
  | seq (a b : RE) : RE
  | alt (a b : RE) : RE
  | starCls (φ : Char → Bool) : RE
  | wordB : RE

/-- Class for a case-insensitive literal character under `(?i)`:
the input matches iff the lowercase forms of the two characters
agree. -/
def ciCls (l : Char) : Char → Bool := fun c => pyLower c == pyLower l

/-- Class for a case-sensitive literal character. -/
def exCls (l : Char) : Char → Bool := fun c => c == l

/-- Case-insensitive literal character as a regex. -/
def ciC (l : Char) : RE := RE.cls (ciCls l)

/-- Case-sensitive literal character as a regex. -/
def exC (l : Char) : RE := RE.cls (exCls l)

/-- Sequence of regexes built from a list of characters. -/
def listRE (f : Char → RE) (cs : List Char) : RE :=
  cs.foldr (fun c r => RE.seq (f c) r) RE.eps

/-- Case-insensitive literal string under `(?i)`. -/
def ciStr (s : String) : RE := listRE ciC s.toList

/-- Regex that never matches; used as the unit of alternation lists. -/
def never : RE := RE.cls (fun _ => false)

/-- Alternation of a list of regexes. -/
def alts (rs : List RE) : RE := rs.foldr RE.alt never

/-- Concatenation of a list of regexes. -/
def cat (rs : List RE) : RE := rs.foldr RE.seq RE.eps

/-- The Python regex `.` outside DOTALL mode: any character except a
newline. -/
def dotC : RE := RE.cls (fun c => !(c == '\n'))

/-- Bounded repetition `r\x7b0,n\x7d`, right-nested so the matcher produces at
most `n + 1` outcome states. -/
def upTo (r : RE) : Nat → RE
  | 0 => RE.eps
  | n + 1 => RE.alt RE.eps (RE.seq r (upTo r n))

/-- Exact repetition `r\x7bn\x7d`. -/
def repN (r : RE) : Nat → RE
  | 0 => RE.eps
  | n + 1 => RE.seq r (repN r n)

/-- One-or-more repetition `[φ]+` of a character class. -/
def plusCls (φ : Char → Bool) : RE := RE.seq (RE.cls φ) (RE.starCls φ)

/-- Whether the position between the reversed left context and the rest
of the input touches a word character on the given side. -/
def atWordChar : List Char → Bool
  | [] => false
  | c :: _ => isWordChar c

/-- Outcome states of matching `[φ]*` at a position: stop now, or
consume one `φ` character and continue.  A state is the pair of the
reversed consumed prefix (the full left context) and the remaining
input. -/
def starEnds (φ : Char → Bool) (l : List Char) : List Char → List (List Char × List Char)
  | [] => [(l, [])]
  | c :: rest =>
      if φ c then (l, c :: rest) :: starEnds φ (c :: l) rest
      else [(l, c :: rest)]

/-- All outcome states of matching a regex starting at the position
described by reversed left context `l` and remaining input `r`. -/
def mEnds : RE → List Char → List Char → List (List Char × List Char)
  | RE.eps, l, r => [(l, r)]
  | RE.cls φ, l, r =>
      match r with
      | [] => []
      | c :: rest => if φ c then [(c :: l, rest)] else []
  | RE.seq a b, l, r => (mEnds a l r).flatMap (fun p => mEnds b p.1 p.2)
  | RE.alt a b, l, r => mEnds a l r ++ mEnds b l r
  | RE.starCls φ, l, r => starEnds φ l r
  | RE.wordB, l, r => if atWordChar l != atWordChar r then [(l, r)] else []

/-- Whether the regex matches starting at some position at or after the
current one. -/
def searchFrom (r : RE) (l rest : List Char) : Bool :=
  !(mEnds r l rest).isEmpty ||
    match rest with
    | [] => false
    | c :: rest2 => searchFrom r (c :: l) rest2

/-- Model of Python `pattern.search(text)` truthiness: the regex
matches some substring of the text. -/
def reSearch (r : RE) (text : List Char) : Bool :=
  searchFrom r [] text

/-- Compiled pattern: the exact source string (used by `rule_hit` as
the output label, Python `pat.pattern`) together with its regex. -/
structure Pat where
  pattern : String
  re : RE

/-- Character class `[A-Za-z0-9._%+-]` of the email local part. -/
def emailLocalCls (c : Char) : Bool :=
  alphaCls c || digitCls c || exCls '.' c || exCls '_' c || exCls '%' c
    || exCls '+' c || exCls '-' c

/-- Character class `[A-Za-z0-9.-]` of the email domain part. -/
def emailDomCls (c : Char) : Bool :=
  alphaCls c || digitCls c || exCls '.' c || exCls '-' c

/-- Regex of `\b(07|01)\d\x7b8\x7d\b` (the KE phone rule, also re-searched
verbatim inside `decide`). -/
def phoneRE : RE :=
  cat [RE.wordB,
       RE.alt (cat [exC '0', exC '7']) (cat [exC '0', exC '1']),
       repN (RE.cls digitCls) 8,
       RE.wordB]

/-- Blocklist rule 1: violent verb, up to 18 filler characters, target. -/
def blockPat1 : Pat :=
  ⟨"(?i)\\b(kill|lynch|burn|shoot|stone|attack|beat)\\b.\x7b0,18\x7d\\b(him|her|them|you|ichung[w]ah|majority\\s*leader|mp)\\b",
   cat [RE.wordB,
        alts [ciStr "kill", ciStr "lynch", ciStr "burn", ciStr "shoot",
              ciStr "stone", ciStr "attack", ciStr "beat"],
        RE.wordB, upTo dotC 18, RE.wordB,
        alts [ciStr "him", ciStr "her", ciStr "them", ciStr "you",
              cat [ciStr "ichung", ciC 'w', ciStr "ah"],
              cat [ciStr "majority", RE.starCls isPySpace, ciStr "leader"],
              ciStr "mp"],
        RE.wordB]⟩

/-- Blocklist rule 2: hang, up to 18 filler characters, target. -/
def blockPat2 : Pat :=
  ⟨"(?i)\\bhang\\b.\x7b0,18\x7d\\b(him|her|them|you|ichung[w]ah)\\b",
   cat [RE.wordB, ciStr "hang", RE.wordB, upTo dotC 18, RE.wordB,
        alts [ciStr "him", ciStr "her", ciStr "them", ciStr "you",
              cat [ciStr "ichung", ciC 'w', ciStr "ah"]],
        RE.wordB]⟩

/-- Blocklist rule 3: KE phone number. -/
def blockPat3 : Pat :=
  ⟨"\\b(07|01)\\d\x7b8\x7d\\b", phoneRE⟩

/-- Blocklist rule 4: email address. -/
def blockPat4 : Pat :=
  ⟨"\\b[A-Za-z0-9._%+-]+@[A-Za-z0-9.-]+\\.[A-Za-z]\x7b2,\x7d\\b",
   cat [RE.wordB, plusCls emailLocalCls, exC '@', plusCls emailDomCls,
        exC '.', repN (RE.cls alphaCls) 2, RE.starCls alphaCls, RE.wordB]⟩

/-- Blocklist rule 5: the word madoadoa. -/
def blockPat5 : Pat :=
  ⟨"(?i)\\bmadoadoa\\b",
   cat [RE.wordB, ciStr "madoadoa", RE.wordB]⟩

/-- Blocklist rule 6: link shorteners. -/
def blockPat6 : Pat :=
  ⟨"(?i)\\b(bit\\.ly|tinyurl\\.com|ow\\.ly|buff\\.ly|t\\.co|goo\\.gl|smarturl\\.it)\\b",
   cat [RE.wordB,
        alts [ciStr "bit.ly", ciStr "tinyurl.com", ciStr "ow.ly",
              ciStr "buff.ly", ciStr "t.co", ciStr "goo.gl", ciStr "smarturl.it"],
        RE.wordB]⟩

/-- Blocklist rule 7: spam and scam phrasing, three alternatives. -/
def blockPat7 : Pat :=
  ⟨"(?i)\\bDM (me|now) for profits\\b|\\bWhatsApp\\b.\x7b0,12\x7d\\bprofits\\b|\\bmpesa\\b.\x7b0,12\x7d\\b(double|multiply)\\b",
   alts [cat [RE.wordB, ciStr "DM ", RE.alt (ciStr "me") (ciStr "now"),
              ciStr " for profits", RE.wordB],
         cat [RE.wordB, ciStr "WhatsApp", RE.wordB, upTo dotC 12, RE.wordB,
              ciStr "profits", RE.wordB],
         cat [RE.wordB, ciStr "mpesa", RE.wordB, upTo dotC 12, RE.wordB,
              RE.alt (ciStr "double") (ciStr "multiply"), RE.wordB]]⟩

/-- The blocklist rule set of `src/main.py`. -/
def BLOCKLIST_REGEX : List Pat :=
  [blockPat1, blockPat2, blockPat3, blockPat4, blockPat5, blockPat6, blockPat7]

/-- Watchlist rule 1: named political topics. -/
def watchPat1 : Pat :=
  ⟨"(?i)handshake|deep state|state capture|finance bill|tax hike|UDA|Azimio|bi-partisan|public participation",
   alts [ciStr "handshake", ciStr "deep state", ciStr "state capture",
         ciStr "finance bill", ciStr "tax hike", ciStr "UDA", ciStr "Azimio",
         ciStr "bi-partisan", ciStr "public participation"]⟩

/-- Watchlist rule 2: is-a-thief style accusations. -/
def watchPat2 : Pat :=
  ⟨"(?i)(is|are|was|were)\\s+(a|an)\\s+(thief|corrupt|liar|traitor)",
   cat [alts [ciStr "is", ciStr "are", ciStr "was", ciStr "were"],
        plusCls isPySpace,
        RE.alt (ciStr "a") (ciStr "an"),
        plusCls isPySpace,
        alts [ciStr "thief", ciStr "corrupt", ciStr "liar", ciStr "traitor"]]⟩

/-- The watchlist rule set of `src/main.py`. -/
def WATCHLIST_REGEX : List Pat := [watchPat1, watchPat2]

/-- Class `[k*]` under `(?i)`. -/
def clsKStar (c : Char) : Bool := ciCls 'k' c || exCls '*' c

/-- Class `[a@]` under `(?i)`. -/
def clsAAt (c : Char) : Bool := ciCls 'a' c || exCls '@' c

/-- Class `[jg]` under `(?i)`. -/
def clsJG (c : Char) : Bool := ciCls 'j' c || ciCls 'g' c

/-- Class `[t7]` under `(?i)`. -/
def clsT7 (c : Char) : Bool := ciCls 't' c || exCls '7' c

/-- Slur rule 1.  The source `(?i)\b[k*]w[a@]***\b` is rejected by
Python `re.compile` (multiple repeat); the stacked repeats are read as
the single repeat `[a@]*`.  The label keeps the exact source string. -/
def slurPat1 : Pat :=
  ⟨"(?i)\\b[k*]w[a@]***\\b",
   cat [RE.wordB, RE.cls clsKStar, ciC 'w', RE.starCls clsAAt, RE.wordB]⟩

/-- Slur rule 2.  The source `(?i)\b[jg]***[t7]\b` is rejected by
Python `re.compile` (multiple repeat); the stacked repeats are read as
the single repeat `[jg]*`.  The label keeps the exact source string. -/
def slurPat2 : Pat :=
  ⟨"(?i)\\b[jg]***[t7]\\b",
   cat [RE.wordB, RE.starCls clsJG, RE.cls clsT7, RE.wordB]⟩

/-- The slur rule set of `src/main.py`. -/
def SLUR_PATTERNS : List Pat := [slurPat1, slurPat2]

/-- Regex of the hard-delete override term search
`(?i)kill|lynch|burn|shoot|hang|attack`, applied to match labels. -/
def termRE : RE :=
  alts [ciStr "kill", ciStr "lynch", ciStr "burn", ciStr "shoot",
        ciStr "hang", ciStr "attack"]

/-- Model of `rule_hit`: the labels of the patterns whose regex finds a
match in the text, in pattern-set order. -/
def rule_hit (text : List Char) (patterns : List Pat) : List String :=
  (patterns.filter (fun p => reSearch p.re text)).map Pat.pattern

/-- Model of Python `sub in text`: some suffix of the text starts with
`sub`. -/
def hasSubstr (sub : List Char) : List Char → Bool
  | [] => sub.isEmpty
  | c :: rest => sub.isPrefixOf (c :: rest) || hasSubstr sub rest

/-- Model of `naive_toxicity_score`.  The slur and blocklist hits are
computed on the lowercased text `t`, exactly as in the source; Python
floats are modelled as exact rationals (see the header note). -/
def naive_toxicity_score (text : String) : ℚ :=
  min ((if 200 < text.length then (0.05 : ℚ) else 0)
     + (if 20 < (text.toList.filter pyIsUpper).length then (0.1 : ℚ) else 0)
     + (if hasSubstr "!!!".toList text.toList || hasSubstr "???".toList text.toList then (0.1 : ℚ) else 0)
     + (if rule_hit (text.toList.map pyLower) SLUR_PATTERNS ≠ [] then (0.5 : ℚ) else 0)
     + (if rule_hit (text.toList.map pyLower) BLOCKLIST_REGEX ≠ [] then (0.4 : ℚ) else 0)) 1

/-- Model of the pydantic `ActorMeta`, all fields optional. -/
structure ActorMeta where
  user_id : Option String := none
  is_new_account : Option Bool := none
  is_whitelisted : Option Bool := none

/-- The four moderation actions. -/
inductive Action where
  | ALLOW | REVIEW | HIDE | DELETE
deriving DecidableEq, Repr

/-- Model of `DecideOut`. -/
structure DecideOut where
  action : Action
  score : ℚ
  rule_matches : List String
deriving DecidableEq, Repr

/-- The local `matches_block` of `decide`: blocklist hits then slur
hits, on the raw text. -/
def matches_block (text : String) : List String :=
  rule_hit text.toList BLOCKLIST_REGEX ++ rule_hit text.toList SLUR_PATTERNS

/-- The local `matches_watch` of `decide`: watchlist hits on the raw
text. -/
def matches_watch (text : String) : List String :=
  rule_hit text.toList WATCHLIST_REGEX

/-- The hard-delete override condition of `decide`: some blocklist or
slur match label contains a violent term, or the raw text contains a KE
phone number. -/
def hard_delete_cond (text : String) : Bool :=
  (matches_block text).any (fun m => reSearch termRE m.toList)
    || reSearch phoneRE text.toList

/-- Model of `decide`.  Python truthiness: `actor.is_whitelisted` is
truthy iff it is `some true`; a list is truthy iff it is nonempty. -/
def decide (text : String) (actor : ActorMeta) : DecideOut :=
  if actor.is_whitelisted = some true then
    { action := if matches_block text ≠ [] then Action.REVIEW else Action.ALLOW,
      score := naive_toxicity_score text,
      rule_matches := matches_block text ++ matches_watch text }
  else if hard_delete_cond text then
    { action := Action.DELETE,
      score := max 0.9 (naive_toxicity_score text),
      rule_matches := matches_block text }
  else if (0.90 : ℚ) ≤ naive_toxicity_score text then
    { action := Action.DELETE,
      score := naive_toxicity_score text,
      rule_matches := matches_block text ++ matches_watch text }
  else if (0.70 : ℚ) ≤ naive_toxicity_score text ∨ matches_block text ≠ [] then
    { action := Action.HIDE,
      score := max 0.7 (naive_toxicity_score text),
      rule_matches := matches_block text ++ matches_watch text }
  else if (0.40 : ℚ) ≤ naive_toxicity_score text ∨ matches_watch text ≠ [] then
    { action := Action.REVIEW,
      score := max 0.4 (naive_toxicity_score text),
      rule_matches := matches_block text ++ matches_watch text }
  else
    { action := Action.ALLOW,
      score := naive_toxicity_score text,
      rule_matches := matches_block text ++ matches_watch text }

/-- A character class is case-blind when lowercasing the input never
changes its verdict. -/
def ClsInv (φ : Char → Bool) : Prop := ∀ c, φ (pyLower c) = φ c

/-- A regex is case-blind when every character class in it is. -/
def REInv : RE → Prop
  | RE.eps => True
  | RE.cls φ => ClsInv φ
  | RE.seq a b => REInv a ∧ REInv b
  | RE.alt a b => REInv a ∧ REInv b
  | RE.starCls φ => ClsInv φ
  | RE.wordB => True

/-- Toxicity score as the specification words it: `min(1.0, s)` where
`s` adds 0.05 for length over 200, 0.10 for over 20 uppercase
characters, 0.10 for a `!!!` or `???` substring, 0.50 when at least one
slur-list pattern matches the text, and 0.40 when at least one
blocklist pattern matches the text. -/
def spec_score (text : String) : ℚ :=
  min 1 ((if 200 < text.length then (0.05 : ℚ) else 0)
     + (if 20 < (text.toList.filter pyIsUpper).length then (0.1 : ℚ) else 0)
     + (if hasSubstr "!!!".toList text.toList || hasSubstr "???".toList text.toList then (0.1 : ℚ) else 0)
     + (if SLUR_PATTERNS.any (fun p => reSearch p.re text.toList) then (0.5 : ℚ) else 0)
     + (if BLOCKLIST_REGEX.any (fun p => reSearch p.re text.toList) then (0.4 : ℚ) else 0))

/-- The minimal score the escalation ladder associates with each
action: 0 for ALLOW, 0.4 for REVIEW, 0.7 for HIDE, 0.9 for DELETE. -/
def ladder_floor : Action → ℚ
  | Action.ALLOW => 0
  | Action.REVIEW => 0.4
  | Action.HIDE => 0.7
  | Action.DELETE => 0.9

/-! Character-level lemmas: lowercasing is idempotent and preserves
every class used by the rule sets. -/

lemma char_toNat_inj {a b : Char} (h : a.toNat = b.toNat) : a = b :=
  Char.eq_of_val_eq (UInt32.ext h)

lemma toNat_pyLower_upper {c : Char} (h : 65 ≤ c.toNat ∧ c.toNat ≤ 90) :
    (pyLower c).toNat = c.toNat + 32 := by
  unfold pyLower
  rw [if_pos h]
  have hv : (c.toNat + 32).isValidChar := Or.inl (by omega)
  unfold Char.ofNat
  rw [dif_pos hv]
  unfold Char.ofNatAux Char.toNat
  rfl

lemma toNat_pyLower_cases (c : Char) :
    ((pyLower c).toNat = c.toNat ∧ ¬(65 ≤ c.toNat ∧ c.toNat ≤ 90)) ∨
    ((pyLower c).toNat = c.toNat + 32 ∧ 65 ≤ c.toNat ∧ c.toNat ≤ 90) := by
  by_cases h : 65 ≤ c.toNat ∧ c.toNat ≤ 90
  · exact Or.inr ⟨toNat_pyLower_upper h, h⟩
  · refine Or.inl ⟨?_, h⟩
    unfold pyLower
    rw [if_neg h]

lemma pyLower_idem (c : Char) : pyLower (pyLower c) = pyLower c := by
  rcases toNat_pyLower_cases (pyLower c) with ⟨h, _⟩ | ⟨h, h1, h2⟩
  · exact char_toNat_inj h
  · rcases toNat_pyLower_cases c with ⟨g, gn⟩ | ⟨g, g1, g2⟩
    · rw [g] at h1 h2
      exact absurd ⟨h1, h2⟩ gn
    · rw [g] at h1 h2
      exact absurd h2 (by omega)

lemma clsInv_ciCls (l : Char) : ClsInv (ciCls l) := by
  intro c
  unfold ciCls
  rw [pyLower_idem]

lemma clsInv_exCls {l : Char} (h1 : ¬(65 ≤ l.toNat ∧ l.toNat ≤ 90))
    (h2 : ¬(97 ≤ l.toNat ∧ l.toNat ≤ 122)) : ClsInv (exCls l) := by
  intro c
  unfold exCls
  rw [Bool.eq_iff_iff]
  simp only [beq_iff_eq]
  constructor
  · intro h
    have ht : (pyLower c).toNat = l.toNat := by rw [h]
    rcases toNat_pyLower_cases c with ⟨g, _⟩ | ⟨g, g1, g2⟩
    · exact char_toNat_inj (by omega)
    · exact absurd h2 (by omega)
  · intro h
    rw [h]
    rcases toNat_pyLower_cases l with ⟨g, _⟩ | ⟨g, g1, g2⟩
    · exact char_toNat_inj g
    · exact absurd ⟨g1, g2⟩ h1

lemma toNatEq_pyLower {k : Nat} (h1 : ¬(65 ≤ k ∧ k ≤ 90))
    (h2 : ¬(97 ≤ k ∧ k ≤ 122)) (c : Char) :
    ((pyLower c).toNat == k) = (c.toNat == k) := by
  rcases toNat_pyLower_cases c with ⟨h, _⟩ | ⟨h, g1, g2⟩ <;>
    (rw [Bool.eq_iff_iff]; simp only [beq_iff_eq, h]; try omega)

lemma clsInv_digit : ClsInv digitCls := by
  intro c
  unfold digitCls
  rcases toNat_pyLower_cases c with ⟨h, _⟩ | ⟨h, g1, g2⟩ <;>
    (rw [Bool.eq_iff_iff]
     simp only [Bool.and_eq_true, decide_eq_true_eq, h]
     try omega)

lemma clsInv_alpha : ClsInv alphaCls := by
  intro c
  unfold alphaCls
  rcases toNat_pyLower_cases c with ⟨h, _⟩ | ⟨h, g1, g2⟩ <;>
    (rw [Bool.eq_iff_iff]
     simp only [Bool.or_eq_true, Bool.and_eq_true, decide_eq_true_eq, h]
     try omega)

lemma clsInv_word : ClsInv isWordChar := by
  intro c
  unfold isWordChar
  rw [clsInv_alpha c, clsInv_digit c, toNatEq_pyLower (by omega) (by omega) c]

lemma clsInv_space : ClsInv isPySpace := by
  intro c
  unfold isPySpace
  rw [toNatEq_pyLower (by omega) (by omega) c,
      toNatEq_pyLower (by omega) (by omega) c,
      toNatEq_pyLower (by omega) (by omega) c,
      toNatEq_pyLower (by omega) (by omega) c,
      toNatEq_pyLower (by omega) (by omega) c,
      toNatEq_pyLower (by omega) (by omega) c]

lemma clsInv_dot : ClsInv (fun c => !(c == '\n')) := by
  intro c
  have h := clsInv_exCls (l := '\n') (by decide) (by decide) c
  unfold exCls at h
  simp only [h]

lemma clsInv_emailLocal : ClsInv emailLocalCls := by
  intro c
  unfold emailLocalCls
  rw [clsInv_alpha c, clsInv_digit c,
      clsInv_exCls (l := '.') (by decide) (by decide) c,
      clsInv_exCls (l := '_') (by decide) (by decide) c,
      clsInv_exCls (l := '%') (by decide) (by decide) c,
      clsInv_exCls (l := '+') (by decide) (by decide) c,
      clsInv_exCls (l := '-') (by decide) (by decide) c]

lemma clsInv_emailDom : ClsInv emailDomCls := by
  intro c
  unfold emailDomCls
  rw [clsInv_alpha c, clsInv_digit c,
      clsInv_exCls (l := '.') (by decide) (by decide) c,
      clsInv_exCls (l := '-') (by decide) (by decide) c]

lemma clsInv_kStar : ClsInv clsKStar := by
  intro c
  unfold clsKStar
  rw [clsInv_ciCls 'k' c, clsInv_exCls (l := '*') (by decide) (by decide) c]

lemma clsInv_aAt : ClsInv clsAAt := by
  intro c
  unfold clsAAt
  rw [clsInv_ciCls 'a' c, clsInv_exCls (l := '@') (by decide) (by decide) c]

lemma clsInv_jg : ClsInv clsJG := by
  intro c
  unfold clsJG
  rw [clsInv_ciCls 'j' c, clsInv_ciCls 'g' c]

lemma clsInv_t7 : ClsInv clsT7 := by
  intro c
  unfold clsT7
  rw [clsInv_ciCls 't' c, clsInv_exCls (l := '7') (by decide) (by decide) c]

/-! Case-blindness of whole regexes. -/

lemma REInv_never : REInv never := by
  intro c
  rfl

lemma REInv_listRE_ciC (cs : List Char) : REInv (listRE ciC cs) := by
  induction cs with
  | nil => exact True.intro
  | cons c cs ih => exact ⟨clsInv_ciCls c, ih⟩

lemma REInv_ciStr (s : String) : REInv (ciStr s) :=
  REInv_listRE_ciC s.toList

lemma REInv_cls {φ : Char → Bool} (h : ClsInv φ) : REInv (RE.cls φ) := h

lemma REInv_upTo {r : RE} (h : REInv r) : ∀ n, REInv (upTo r n) := by
  intro n
  induction n with
  | zero => exact True.intro
  | succ n ih => exact ⟨True.intro, h, ih⟩

lemma REInv_repN {r : RE} (h : REInv r) : ∀ n, REInv (repN r n) := by
  intro n
  induction n with
  | zero => exact True.intro
  | succ n ih => exact ⟨h, ih⟩

lemma REInv_blockPat1 : REInv blockPat1.re :=
  ⟨True.intro,
   ⟨REInv_ciStr _, REInv_ciStr _, REInv_ciStr _, REInv_ciStr _, REInv_ciStr _,
    REInv_ciStr _, REInv_ciStr _, REInv_never⟩,
   True.intro,
   REInv_upTo (REInv_cls clsInv_dot) 18,
   True.intro,
   ⟨REInv_ciStr _, REInv_ciStr _, REInv_ciStr _, REInv_ciStr _,
    ⟨REInv_ciStr _, clsInv_ciCls 'w', REInv_ciStr _, True.intro⟩,
    ⟨REInv_ciStr _, clsInv_space, REInv_ciStr _, True.intro⟩,
    REInv_ciStr _, REInv_never⟩,
   True.intro, True.intro⟩

lemma REInv_blockPat2 : REInv blockPat2.re :=
  ⟨True.intro, REInv_ciStr _, True.intro, REInv_upTo (REInv_cls clsInv_dot) 18, True.intro,
   ⟨REInv_ciStr _, REInv_ciStr _, REInv_ciStr _, REInv_ciStr _,
    ⟨REInv_ciStr _, clsInv_ciCls 'w', REInv_ciStr _, True.intro⟩,
    REInv_never⟩,
   True.intro, True.intro⟩

lemma REInv_phoneRE : REInv phoneRE :=
  ⟨True.intro,
   ⟨⟨clsInv_exCls (by decide) (by decide), clsInv_exCls (by decide) (by decide), True.intro⟩,
    ⟨clsInv_exCls (by decide) (by decide), clsInv_exCls (by decide) (by decide), True.intro⟩⟩,
   REInv_repN (REInv_cls clsInv_digit) 8,
   True.intro, True.intro⟩

lemma REInv_blockPat4 : REInv blockPat4.re :=
  ⟨True.intro,
   ⟨clsInv_emailLocal, clsInv_emailLocal⟩,
   clsInv_exCls (by decide) (by decide),
   ⟨clsInv_emailDom, clsInv_emailDom⟩,
   clsInv_exCls (by decide) (by decide),
   REInv_repN (REInv_cls clsInv_alpha) 2,
   clsInv_alpha,
   True.intro, True.intro⟩

lemma REInv_blockPat5 : REInv blockPat5.re :=
  ⟨True.intro, REInv_ciStr _, True.intro, True.intro⟩

lemma REInv_blockPat6 : REInv blockPat6.re :=
  ⟨True.intro,
   ⟨REInv_ciStr _, REInv_ciStr _, REInv_ciStr _, REInv_ciStr _, REInv_ciStr _,
    REInv_ciStr _, REInv_ciStr _, REInv_never⟩,
   True.intro, True.intro⟩

lemma REInv_blockPat7 : REInv blockPat7.re :=
  ⟨⟨True.intro, REInv_ciStr _, ⟨REInv_ciStr _, REInv_ciStr _⟩, REInv_ciStr _,
    True.intro, True.intro⟩,
   ⟨True.intro, REInv_ciStr _, True.intro, REInv_upTo (REInv_cls clsInv_dot) 12, True.intro,
    REInv_ciStr _, True.intro, True.intro⟩,
   ⟨True.intro, REInv_ciStr _, True.intro, REInv_upTo (REInv_cls clsInv_dot) 12, True.intro,
    ⟨REInv_ciStr _, REInv_ciStr _⟩, True.intro, True.intro⟩,
   REInv_never⟩

lemma REInv_watchPat1 : REInv watchPat1.re :=
  ⟨REInv_ciStr _, REInv_ciStr _, REInv_ciStr _, REInv_ciStr _, REInv_ciStr _,
   REInv_ciStr _, REInv_ciStr _, REInv_ciStr _, REInv_ciStr _, REInv_never⟩

lemma REInv_watchPat2 : REInv watchPat2.re :=
  ⟨⟨REInv_ciStr _, REInv_ciStr _, REInv_ciStr _, REInv_ciStr _, REInv_never⟩,
   ⟨clsInv_space, clsInv_space⟩,
   ⟨REInv_ciStr _, REInv_ciStr _⟩,
   ⟨clsInv_space, clsInv_space⟩,
   ⟨REInv_ciStr _, REInv_ciStr _, REInv_ciStr _, REInv_ciStr _, REInv_never⟩,
   True.intro⟩

lemma REInv_slurPat1 : REInv slurPat1.re :=
  ⟨True.intro, clsInv_kStar, clsInv_ciCls 'w', clsInv_aAt, True.intro, True.intro⟩

lemma REInv_slurPat2 : REInv slurPat2.re :=
  ⟨True.intro, clsInv_jg, clsInv_t7, True.intro, True.intro⟩

lemma REInv_BLOCKLIST : ∀ p ∈ BLOCKLIST_REGEX, REInv p.re := by
  intro p hp
  simp only [BLOCKLIST_REGEX, List.mem_cons, List.not_mem_nil, or_false] at hp
  rcases hp with rfl | rfl | rfl | rfl | rfl | rfl | rfl
  · exact REInv_blockPat1
  · exact REInv_blockPat2
  · exact REInv_phoneRE
  · exact REInv_blockPat4
  · exact REInv_blockPat5
  · exact REInv_blockPat6
  · exact REInv_blockPat7

lemma REInv_SLUR : ∀ p ∈ SLUR_PATTERNS, REInv p.re := by
  intro p hp
  simp only [SLUR_PATTERNS, List.mem_cons, List.not_mem_nil, or_false] at hp
  rcases hp with rfl | rfl
  · exact REInv_slurPat1
  · exact REInv_slurPat2

lemma REInv_WATCHLIST : ∀ p ∈ WATCHLIST_REGEX, REInv p.re := by
  intro p hp
  simp only [WATCHLIST_REGEX, List.mem_cons, List.not_mem_nil, or_false] at hp
  rcases hp with rfl | rfl
  · exact REInv_watchPat1
  · exact REInv_watchPat2

/-! Lowercasing the input does not change matching for case-blind
regexes. -/

lemma atWordChar_map (l : List Char) :
    atWordChar (l.map pyLower) = atWordChar l := by
  cases l with
  | nil => rfl
  | cons c cs => exact clsInv_word c

lemma starEnds_pyLower {φ : Char → Bool} (h : ClsInv φ) :
    ∀ (rem l : List Char),
      starEnds φ (l.map pyLower) (rem.map pyLower) =
        (starEnds φ l rem).map (fun p => (p.1.map pyLower, p.2.map pyLower)) := by
  intro rem
  induction rem with
  | nil => intro l; rfl
  | cons c rest ih =>
    intro l
    show starEnds φ (l.map pyLower) (pyLower c :: rest.map pyLower) = _
    unfold starEnds
    rw [h c]
    by_cases hc : φ c
    · rw [if_pos hc, if_pos hc]
      rw [List.map_cons]
      refine congrArg₂ _ rfl ?_
      exact ih (c :: l)
    · rw [if_neg hc, if_neg hc]
      rfl

lemma mEnds_pyLower :
    ∀ (r : RE), REInv r → ∀ (l rem : List Char),
      mEnds r (l.map pyLower) (rem.map pyLower) =
        (mEnds r l rem).map (fun p => (p.1.map pyLower, p.2.map pyLower)) := by
  intro r
  induction r with
  | eps => intro _ l rem; rfl
  | cls φ =>
    intro h l rem
    cases rem with
    | nil => rfl
    | cons c rest =>
      show (if φ (pyLower c) then [(pyLower c :: l.map pyLower, rest.map pyLower)] else [])
          = (if φ c then [(c :: l, rest)] else []).map
              (fun p => (p.1.map pyLower, p.2.map pyLower))
      rw [h c]
      by_cases hc : φ c
      · rw [if_pos hc, if_pos hc]
        rfl
      · rw [if_neg hc, if_neg hc]
        rfl
  | seq a b iha ihb =>
    intro h l rem
    show (mEnds a (l.map pyLower) (rem.map pyLower)).flatMap _ = _
    rw [iha h.1 l rem]
    have aux : ∀ (xs : List (List Char × List Char)),
        (xs.map (fun p => (p.1.map pyLower, p.2.map pyLower))).flatMap
            (fun p => mEnds b p.1 p.2) =
          (xs.flatMap (fun p => mEnds b p.1 p.2)).map
            (fun p => (p.1.map pyLower, p.2.map pyLower)) := by
      intro xs
      induction xs with
      | nil => rfl
      | cons x xs ihx =>
        simp only [List.map_cons, List.flatMap_cons, List.map_append, ihx]
        rw [ihb h.2 x.1 x.2]
    exact aux (mEnds a l rem)
  | alt a b iha ihb =>
    intro h l rem
    show mEnds a (l.map pyLower) (rem.map pyLower) ++ mEnds b (l.map pyLower) (rem.map pyLower)
        = (mEnds a l rem ++ mEnds b l rem).map (fun p => (p.1.map pyLower, p.2.map pyLower))
    rw [iha h.1 l rem, ihb h.2 l rem, List.map_append]
  | starCls φ =>
    intro h l rem
    exact starEnds_pyLower h rem l
  | wordB =>
    intro _ l rem
    show (if atWordChar (l.map pyLower) != atWordChar (rem.map pyLower)
            then [(l.map pyLower, rem.map pyLower)] else [])
        = (if atWordChar l != atWordChar rem then [(l, rem)] else []).map
            (fun p => (p.1.map pyLower, p.2.map pyLower))
    rw [atWordChar_map, atWordChar_map]
    by_cases hb : atWordChar l != atWordChar rem
    · rw [if_pos hb, if_pos hb]
      rfl
    · rw [if_neg hb, if_neg hb]
      rfl

lemma isEmpty_map {α β : Type} (f : α → β) (xs : List α) :
    (xs.map f).isEmpty = xs.isEmpty := by
  cases xs <;> rfl

lemma searchFrom_pyLower {r : RE} (h : REInv r) :
    ∀ (rem l : List Char),
      searchFrom r (l.map pyLower) (rem.map pyLower) = searchFrom r l rem := by
  intro rem
  induction rem with
  | nil =>
    intro l
    show (!(mEnds r (l.map pyLower) []).isEmpty || false)
        = (!(mEnds r l []).isEmpty || false)
    have h1 := mEnds_pyLower r h l []
    simp only [List.map_nil] at h1
    rw [h1, isEmpty_map]
  | cons c rest ih =>
    intro l
    show (!(mEnds r (l.map pyLower) (pyLower c :: rest.map pyLower)).isEmpty
            || searchFrom r (pyLower c :: l.map pyLower) (rest.map pyLower))
        = (!(mEnds r l (c :: rest)).isEmpty || searchFrom r (c :: l) rest)
    have h1 := mEnds_pyLower r h l (c :: rest)
    simp only [List.map_cons] at h1
    have h2 := ih (c :: l)
    simp only [List.map_cons] at h2
    rw [h1, isEmpty_map, h2]

lemma reSearch_pyLower {r : RE} (h : REInv r) (t : List Char) :
    reSearch r (t.map pyLower) = reSearch r t := by
  have h1 := searchFrom_pyLower h t []
  simp only [List.map_nil] at h1
  exact h1

lemma rule_hit_pyLower {P : List Pat} (h : ∀ p ∈ P, REInv p.re) (t : List Char) :
    rule_hit (t.map pyLower) P = rule_hit t P := by
  unfold rule_hit
  refine congrArg _ ?_
  apply List.filter_congr
  intro p hp
  rw [reSearch_pyLower (h p hp)]

/-! Structure of `rule_hit`. -/

lemma mem_rule_hit {t : List Char} {P : List Pat} {s : String} :
    s ∈ rule_hit t P ↔ ∃ p, p ∈ P ∧ reSearch p.re t = true ∧ p.pattern = s := by
  unfold rule_hit
  simp only [List.mem_map, List.mem_filter, and_assoc]

lemma rule_hit_eq_nil {t : List Char} {P : List Pat} :
    rule_hit t P = [] ↔ ∀ p ∈ P, reSearch p.re t = false := by
  unfold rule_hit
  rw [List.map_eq_nil_iff, List.filter_eq_nil_iff]
  simp only [Bool.not_eq_true]

lemma rule_hit_sublist (t : List Char) (P : List Pat) :
    List.Sublist (rule_hit t P) (P.map Pat.pattern) :=
  List.Sublist.map Pat.pattern (List.filter_sublist P)

lemma rule_hit_nodup {t : List Char} {P : List Pat}
    (h : (P.map Pat.pattern).Nodup) : (rule_hit t P).Nodup :=
  List.Nodup.sublist (rule_hit_sublist t P) h

lemma rule_hit_ne_nil {t : List Char} {P : List Pat} :
    rule_hit t P ≠ [] ↔ P.any (fun p => reSearch p.re t) = true := by
  rw [Ne, rule_hit_eq_nil, List.any_eq_true]
  constructor
  · intro h
    by_contra hn
    push_neg at hn
    refine h (fun p hp => ?_)
    rcases Bool.eq_false_or_eq_true (reSearch p.re t) with ht | hf
    · exact absurd ht (hn p hp)
    · exact hf
  · rintro ⟨p, hp, hs⟩ h
    rw [h p hp] at hs
    cases hs

lemma label_mem_of_search {t : List Char} {P : List Pat} {p : Pat}
    (hp : p ∈ P) (hs : reSearch p.re t = true) : p.pattern ∈ rule_hit t P :=
  mem_rule_hit.mpr ⟨p, hp, hs, rfl⟩

lemma search_false_of_rule_hit_nil {t : List Char} {P : List Pat} {p : Pat}
    (h : rule_hit t P = []) (hp : p ∈ P) : reSearch p.re t = false :=
  rule_hit_eq_nil.mp h p hp

/-! Bounds on the toxicity score. -/

lemma ite_nonneg {P : Prop} [Decidable P] {q : ℚ} (hq : 0 ≤ q) :
    0 ≤ (if P then q else 0) := by
  split
  · exact hq
  · exact le_refl 0

lemma tox_sum_nonneg (text : String) :
    0 ≤ (if 200 < text.length then (0.05 : ℚ) else 0)
     + (if 20 < (text.toList.filter pyIsUpper).length then (0.1 : ℚ) else 0)
     + (if hasSubstr "!!!".toList text.toList || hasSubstr "???".toList text.toList then (0.1 : ℚ) else 0)
     + (if rule_hit (text.toList.map pyLower) SLUR_PATTERNS ≠ [] then (0.5 : ℚ) else 0)
     + (if rule_hit (text.toList.map pyLower) BLOCKLIST_REGEX ≠ [] then (0.4 : ℚ) else 0) := by
  have h1 : (0:ℚ) ≤ (if 200 < text.length then (0.05 : ℚ) else 0) := ite_nonneg (by norm_num)
  have h2 : (0:ℚ) ≤ (if 20 < (text.toList.filter pyIsUpper).length then (0.1 : ℚ) else 0) := ite_nonneg (by norm_num)
  have h3 : (0:ℚ) ≤ (if hasSubstr "!!!".toList text.toList || hasSubstr "???".toList text.toList then (0.1 : ℚ) else 0) := ite_nonneg (by norm_num)
  have h4 : (0:ℚ) ≤ (if rule_hit (text.toList.map pyLower) SLUR_PATTERNS ≠ [] then (0.5 : ℚ) else 0) := ite_nonneg (by norm_num)
  have h5 : (0:ℚ) ≤ (if rule_hit (text.toList.map pyLower) BLOCKLIST_REGEX ≠ [] then (0.4 : ℚ) else 0) := ite_nonneg (by norm_num)
  linarith

lemma tox_nonneg (text : String) : 0 ≤ naive_toxicity_score text := by
  unfold naive_toxicity_score
  exact le_min (tox_sum_nonneg text) (by norm_num)

lemma tox_le_one (text : String) : naive_toxicity_score text ≤ 1 := by
  unfold naive_toxicity_score
  exact min_le_right _ _

lemma tox_ge_of_hit (text : String)
    (h : rule_hit (text.toList.map pyLower) SLUR_PATTERNS ≠ [] ∨
         rule_hit (text.toList.map pyLower) BLOCKLIST_REGEX ≠ []) :
    (0.4 : ℚ) ≤ naive_toxicity_score text := by
  unfold naive_toxicity_score
  refine le_min ?_ (by norm_num)
  have h1 : (0:ℚ) ≤ (if 200 < text.length then (0.05 : ℚ) else 0) := ite_nonneg (by norm_num)
  have h2 : (0:ℚ) ≤ (if 20 < (text.toList.filter pyIsUpper).length then (0.1 : ℚ) else 0) := ite_nonneg (by norm_num)
  have h3 : (0:ℚ) ≤ (if hasSubstr "!!!".toList text.toList || hasSubstr "???".toList text.toList then (0.1 : ℚ) else 0) := ite_nonneg (by norm_num)
  have h4 : (0:ℚ) ≤ (if rule_hit (text.toList.map pyLower) SLUR_PATTERNS ≠ [] then (0.5 : ℚ) else 0) := ite_nonneg (by norm_num)
  have h5 : (0:ℚ) ≤ (if rule_hit (text.toList.map pyLower) BLOCKLIST_REGEX ≠ [] then (0.4 : ℚ) else 0) := ite_nonneg (by norm_num)
  rcases h with hs | hb
  · rw [if_pos hs]
    linarith
  · rw [if_pos hb]
    linarith

/-! Branch lemmas for `decide`. -/

lemma decide_whitelisted {text : String} {actor : ActorMeta}
    (h : actor.is_whitelisted = some true) :
    decide text actor =
      { action := if matches_block text ≠ [] then Action.REVIEW else Action.ALLOW,
        score := naive_toxicity_score text,
        rule_matches := matches_block text ++ matches_watch text } := by
  unfold decide
  rw [if_pos h]

lemma decide_override {text : String} {actor : ActorMeta}
    (h : ¬ actor.is_whitelisted = some true) (hc : hard_delete_cond text = true) :
    decide text actor =
      { action := Action.DELETE,
        score := max 0.9 (naive_toxicity_score text),
        rule_matches := matches_block text } := by
  unfold decide
  rw [if_neg h, if_pos hc]

lemma decide_tox_delete {text : String} {actor : ActorMeta}
    (h : ¬ actor.is_whitelisted = some true) (hc : ¬ hard_delete_cond text = true)
    (ht : (0.90 : ℚ) ≤ naive_toxicity_score text) :
    decide text actor =
      { action := Action.DELETE,
        score := naive_toxicity_score text,
        rule_matches := matches_block text ++ matches_watch text } := by
  unfold decide
  rw [if_neg h, if_neg hc, if_pos ht]

lemma decide_hide {text : String} {actor : ActorMeta}
    (h : ¬ actor.is_whitelisted = some true) (hc : ¬ hard_delete_cond text = true)
    (ht : ¬ (0.90 : ℚ) ≤ naive_toxicity_score text)
    (hh : (0.70 : ℚ) ≤ naive_toxicity_score text ∨ matches_block text ≠ []) :
    decide text actor =
      { action := Action.HIDE,
        score := max 0.7 (naive_toxicity_score text),
        rule_matches := matches_block text ++ matches_watch text } := by
  unfold decide
  rw [if_neg h, if_neg hc, if_neg ht, if_pos hh]

lemma decide_review {text : String} {actor : ActorMeta}
    (h : ¬ actor.is_whitelisted = some true) (hc : ¬ hard_delete_cond text = true)
    (ht : ¬ (0.90 : ℚ) ≤ naive_toxicity_score text)
    (hh : ¬ ((0.70 : ℚ) ≤ naive_toxicity_score text ∨ matches_block text ≠ []))
    (hr : (0.40 : ℚ) ≤ naive_toxicity_score text ∨ matches_watch text ≠ []) :
    decide text actor =
      { action := Action.REVIEW,
        score := max 0.4 (naive_toxicity_score text),
        rule_matches := matches_block text ++ matches_watch text } := by
  unfold decide
  rw [if_neg h, if_neg hc, if_neg ht, if_neg hh, if_pos hr]

lemma decide_allow {text : String} {actor : ActorMeta}
    (h : ¬ actor.is_whitelisted = some true) (hc : ¬ hard_delete_cond text = true)
    (ht : ¬ (0.90 : ℚ) ≤ naive_toxicity_score text)
    (hh : ¬ ((0.70 : ℚ) ≤ naive_toxicity_score text ∨ matches_block text ≠ []))
    (hr : ¬ ((0.40 : ℚ) ≤ naive_toxicity_score text ∨ matches_watch text ≠ [])) :
    decide text actor =
      { action := Action.ALLOW,
        score := naive_toxicity_score text,
        rule_matches := matches_block text ++ matches_watch text } := by
  unfold decide
  rw [if_neg h, if_neg hc, if_neg ht, if_neg hh, if_neg hr]


/-! Decision-level helper lemmas. -/

lemma tox_ge_of_matches_block {text : String} (h : matches_block text ≠ []) :
    (0.4 : ℚ) ≤ naive_toxicity_score text := by
  apply tox_ge_of_hit
  rw [rule_hit_pyLower REInv_SLUR, rule_hit_pyLower REInv_BLOCKLIST]
  by_cases hb : rule_hit text.toList BLOCKLIST_REGEX = []
  · left
    intro hs
    apply h
    unfold matches_block
    rw [hb, hs]
    rfl
  · right
    exact hb

lemma hard_delete_of_label {text : String} {s : String}
    (hmem : s ∈ matches_block text) (hterm : reSearch termRE s.toList = true) :
    hard_delete_cond text = true := by
  unfold hard_delete_cond
  rw [Bool.or_eq_true, List.any_eq_true]
  exact Or.inl ⟨s, hmem, hterm⟩

lemma hard_delete_of_phone {text : String}
    (h : reSearch phoneRE text.toList = true) : hard_delete_cond text = true := by
  unfold hard_delete_cond
  rw [Bool.or_eq_true]
  exact Or.inr h

lemma phone_false_of_block_nil {text : String}
    (h : rule_hit text.toList BLOCKLIST_REGEX = []) :
    reSearch phoneRE text.toList = false :=
  search_false_of_rule_hit_nil h (List.Mem.tail _ (List.Mem.tail _ (List.Mem.head _)))

lemma hard_delete_false_of_block_nil {text : String}
    (h : matches_block text = []) : hard_delete_cond text = false := by
  unfold hard_delete_cond
  rw [h]
  have hb : rule_hit text.toList BLOCKLIST_REGEX = [] := by
    have := congrArg List.length h
    unfold matches_block at this
    rw [List.length_append] at this
    cases he : rule_hit text.toList BLOCKLIST_REGEX
    · rfl
    · rw [he] at this
      simp at this
  rw [phone_false_of_block_nil hb]
  rfl

lemma rule_matches_full {text : String} {actor : ActorMeta}
    (h : ¬(actor.is_whitelisted ≠ some true ∧ hard_delete_cond text = true)) :
    (decide text actor).rule_matches = matches_block text ++ matches_watch text := by
  by_cases hw : actor.is_whitelisted = some true
  · rw [decide_whitelisted hw]
  · have hc : ¬ hard_delete_cond text = true := fun hct => h ⟨hw, hct⟩
    by_cases ht : (0.90 : ℚ) ≤ naive_toxicity_score text
    · rw [decide_tox_delete hw hc ht]
    · by_cases hh : (0.70 : ℚ) ≤ naive_toxicity_score text ∨ matches_block text ≠ []
      · rw [decide_hide hw hc ht hh]
      · by_cases hr : (0.40 : ℚ) ≤ naive_toxicity_score text ∨ matches_watch text ≠ []
        · rw [decide_review hw hc ht hh hr]
        · rw [decide_allow hw hc ht hh hr]

lemma rule_matches_cases (text : String) (actor : ActorMeta) :
    (decide text actor).rule_matches = matches_block text ++ matches_watch text ∨
    (decide text actor).rule_matches = matches_block text := by
  by_cases h : actor.is_whitelisted ≠ some true ∧ hard_delete_cond text = true
  · right
    rw [decide_override h.1 h.2]
  · left
    exact rule_matches_full h

lemma score_cases (text : String) (actor : ActorMeta) :
    (decide text actor).score = naive_toxicity_score text ∨
    (decide text actor).score = max 0.9 (naive_toxicity_score text) ∨
    (decide text actor).score = max 0.7 (naive_toxicity_score text) ∨
    (decide text actor).score = max 0.4 (naive_toxicity_score text) := by
  by_cases hw : actor.is_whitelisted = some true
  · rw [decide_whitelisted hw]
    exact Or.inl rfl
  · by_cases hc : hard_delete_cond text = true
    · rw [decide_override hw hc]
      exact Or.inr (Or.inl rfl)
    · by_cases ht : (0.90 : ℚ) ≤ naive_toxicity_score text
      · rw [decide_tox_delete hw hc ht]
        exact Or.inl rfl
      · by_cases hh : (0.70 : ℚ) ≤ naive_toxicity_score text ∨ matches_block text ≠ []
        · rw [decide_hide hw hc ht hh]
          exact Or.inr (Or.inr (Or.inl rfl))
        · by_cases hr : (0.40 : ℚ) ≤ naive_toxicity_score text ∨ matches_watch text ≠ []
          · rw [decide_review hw hc ht hh hr]
            exact Or.inr (Or.inr (Or.inr rfl))
          · rw [decide_allow hw hc ht hh hr]
            exact Or.inl rfl

lemma blockPat1_mem : blockPat1 ∈ BLOCKLIST_REGEX := List.Mem.head _

lemma blockPat2_mem : blockPat2 ∈ BLOCKLIST_REGEX :=
  List.Mem.tail _ (List.Mem.head _)

lemma delete_of_hard_cond {text : String} {actor : ActorMeta}
    (hw : actor.is_whitelisted ≠ some true) (hc : hard_delete_cond text = true) :
    (decide text actor).action = Action.DELETE ∧
      (0.9 : ℚ) ≤ (decide text actor).score := by
  rw [decide_override hw hc]
  exact ⟨rfl, le_max_left _ _⟩

lemma term_search_blockPat1 : reSearch termRE blockPat1.pattern.toList = true := by
  decide

lemma term_search_blockPat2 : reSearch termRE blockPat2.pattern.toList = true := by
  decide

/-- C1: for every text and every whitelisted actor, `decide` returns
REVIEW when the combined blocklist-plus-slur match list is nonempty and
ALLOW otherwise, never HIDE or DELETE, and the returned score is the
raw toxicity score. -/
theorem C1_whitelisted_policy (text : String) (actor : ActorMeta)
    (h : actor.is_whitelisted = some true) :
    (decide text actor).action =
      (if matches_block text ≠ [] then Action.REVIEW else Action.ALLOW) ∧
    (decide text actor).action ≠ Action.HIDE ∧
    (decide text actor).action ≠ Action.DELETE ∧
    (decide text actor).score = naive_toxicity_score text := by
  rw [decide_whitelisted h]
  refine ⟨rfl, ?_, ?_, rfl⟩
  · show (if matches_block text ≠ [] then Action.REVIEW else Action.ALLOW) ≠ Action.HIDE
    split
    · exact fun he => Action.noConfusion he
    · exact fun he => Action.noConfusion he
  · show (if matches_block text ≠ [] then Action.REVIEW else Action.ALLOW) ≠ Action.DELETE
    split
    · exact fun he => Action.noConfusion he
    · exact fun he => Action.noConfusion he

theorem C1_witness :
    ({ user_id := none, is_new_account := none, is_whitelisted := some true } : ActorMeta).is_whitelisted = some true ∧
    (decide "kill him" { user_id := none, is_new_account := none, is_whitelisted := some true }).action ≠ Action.DELETE ∧
    (decide "kill him" { user_id := none, is_new_account := none, is_whitelisted := some true }).score
      = naive_toxicity_score "kill him" :=
  ⟨rfl,
   (C1_whitelisted_policy "kill him" _ rfl).2.2.1,
   (C1_whitelisted_policy "kill him" _ rfl).2.2.2⟩

/-- C2: for a non-whitelisted actor, a text matching the KE phone rule
or one of the two violent-threat blocklist rules is DELETEd with score
at least 0.9. -/
theorem C2_phone_or_violent_delete (text : String) (actor : ActorMeta)
    (hw : actor.is_whitelisted ≠ some true)
    (h : reSearch phoneRE text.toList = true ∨
         reSearch blockPat1.re text.toList = true ∨
         reSearch blockPat2.re text.toList = true) :
    (decide text actor).action = Action.DELETE ∧
      (0.9 : ℚ) ≤ (decide text actor).score := by
  refine delete_of_hard_cond hw ?_
  rcases h with hp | h1 | h2
  · exact hard_delete_of_phone hp
  · refine hard_delete_of_label ?_ term_search_blockPat1
    exact List.mem_append.mpr (Or.inl (label_mem_of_search blockPat1_mem h1))
  · refine hard_delete_of_label ?_ term_search_blockPat2
    exact List.mem_append.mpr (Or.inl (label_mem_of_search blockPat2_mem h2))

theorem C2_witness :
    (({} : ActorMeta).is_whitelisted ≠ some true) ∧
    reSearch phoneRE "0712345678".toList = true ∧
    ((decide "0712345678" {}).action = Action.DELETE ∧
      (0.9 : ℚ) ≤ (decide "0712345678" {}).score) :=
  ⟨by decide, by decide,
   C2_phone_or_violent_delete "0712345678" {} (by decide) (Or.inl (by decide))⟩

/-- C3: when the hard-delete override fires for a non-whitelisted
actor, the result is exactly DELETE with score max(0.9, tox) and
rule_matches equal to the blocklist-plus-slur matches only; every other
branch of `decide` returns blocklist-plus-slur matches followed by the
watchlist matches. -/
theorem C3_override_branch (text : String) (actor : ActorMeta)
    (hw : actor.is_whitelisted ≠ some true) (hc : hard_delete_cond text = true) :
    decide text actor =
      { action := Action.DELETE,
        score := max 0.9 (naive_toxicity_score text),
        rule_matches := matches_block text } ∧
    (∀ (t : String) (a : ActorMeta),
        ¬(a.is_whitelisted ≠ some true ∧ hard_delete_cond t = true) →
        (decide t a).rule_matches = matches_block t ++ matches_watch t) :=
  ⟨decide_override hw hc, fun _ _ h2 => rule_matches_full h2⟩

theorem C3_witness :
    hard_delete_cond "kill him" = true ∧
    decide "kill him" {} =
      { action := Action.DELETE,
        score := max 0.9 (naive_toxicity_score "kill him"),
        rule_matches := matches_block "kill him" } :=
  ⟨by decide, (C3_override_branch "kill him" {} (by decide) (by decide)).1⟩

/-- C4: the returned score and the toxicity score always lie in
[0, 1]. -/
theorem C4_score_in_unit_interval (text : String) (actor : ActorMeta) :
    (0 ≤ (decide text actor).score ∧ (decide text actor).score ≤ 1) ∧
    (0 ≤ naive_toxicity_score text ∧ naive_toxicity_score text ≤ 1) := by
  refine ⟨?_, tox_nonneg text, tox_le_one text⟩
  have h0 := tox_nonneg text
  have h1 := tox_le_one text
  rcases score_cases text actor with h | h | h | h <;> rw [h]
  · exact ⟨h0, h1⟩
  · exact ⟨le_trans h0 (le_max_right _ _), max_le (by norm_num) h1⟩
  · exact ⟨le_trans h0 (le_max_right _ _), max_le (by norm_num) h1⟩
  · exact ⟨le_trans h0 (le_max_right _ _), max_le (by norm_num) h1⟩

/-- C5: the code computes the toxicity score exactly as the additive
clamped formula in the specification, with pattern hits taken on the
raw text. -/
theorem C5_score_formula (text : String) :
    naive_toxicity_score text = spec_score text := by
  unfold naive_toxicity_score spec_score
  rw [min_comm]
  rw [rule_hit_pyLower REInv_SLUR, rule_hit_pyLower REInv_BLOCKLIST]
  rw [if_congr rule_hit_ne_nil rfl rfl, if_congr rule_hit_ne_nil rfl rfl]

/-- C6: every label in rule_matches is the source text of a pattern of
one of the three sets that matches the text (also after lowercasing);
the per-set hit lists are duplicate-free; and the output is blocklist
hits, then slur hits, then watchlist hits or nothing, each hit list a
sublist of its pattern set labels in order. -/
theorem C6_rule_matches_structure (text : String) (actor : ActorMeta) :
    (∀ s ∈ (decide text actor).rule_matches,
        ∃ p, (p ∈ BLOCKLIST_REGEX ∨ p ∈ SLUR_PATTERNS ∨ p ∈ WATCHLIST_REGEX) ∧
          p.pattern = s ∧ reSearch p.re text.toList = true ∧
          reSearch p.re (text.toList.map pyLower) = true) ∧
    ((rule_hit text.toList BLOCKLIST_REGEX).Nodup ∧
     (rule_hit text.toList SLUR_PATTERNS).Nodup ∧
     (rule_hit text.toList WATCHLIST_REGEX).Nodup) ∧
    (∃ w, (w = rule_hit text.toList WATCHLIST_REGEX ∨ w = []) ∧
      (decide text actor).rule_matches =
        rule_hit text.toList BLOCKLIST_REGEX ++ rule_hit text.toList SLUR_PATTERNS ++ w) ∧
    (List.Sublist (rule_hit text.toList BLOCKLIST_REGEX) (BLOCKLIST_REGEX.map Pat.pattern) ∧
     List.Sublist (rule_hit text.toList SLUR_PATTERNS) (SLUR_PATTERNS.map Pat.pattern) ∧
     List.Sublist (rule_hit text.toList WATCHLIST_REGEX) (WATCHLIST_REGEX.map Pat.pattern)) := by
  refine ⟨?_, ⟨?_, ?_, ?_⟩, ?_, rule_hit_sublist _ _, rule_hit_sublist _ _, rule_hit_sublist _ _⟩
  · intro s hs
    have hone : s ∈ matches_block text ∨ s ∈ matches_watch text := by
      rcases rule_matches_cases text actor with hca | hca
      · rw [hca] at hs
        exact List.mem_append.mp hs
      · rw [hca] at hs
        exact Or.inl hs
    have hsets : (∃ p, p ∈ BLOCKLIST_REGEX ∧ reSearch p.re text.toList = true ∧ p.pattern = s)
        ∨ (∃ p, p ∈ SLUR_PATTERNS ∧ reSearch p.re text.toList = true ∧ p.pattern = s)
        ∨ (∃ p, p ∈ WATCHLIST_REGEX ∧ reSearch p.re text.toList = true ∧ p.pattern = s) := by
      rcases hone with hmb | hmw
      · have hmb2 : s ∈ rule_hit text.toList BLOCKLIST_REGEX ++ rule_hit text.toList SLUR_PATTERNS := hmb
        rcases List.mem_append.mp hmb2 with hx | hx
        · exact Or.inl (mem_rule_hit.mp hx)
        · exact Or.inr (Or.inl (mem_rule_hit.mp hx))
      · have hmw2 : s ∈ rule_hit text.toList WATCHLIST_REGEX := hmw
        exact Or.inr (Or.inr (mem_rule_hit.mp hmw2))
    rcases hsets with ⟨p, hp, hsrch, hpat⟩ | ⟨p, hp, hsrch, hpat⟩ | ⟨p, hp, hsrch, hpat⟩
    · exact ⟨p, Or.inl hp, hpat, hsrch, by rw [reSearch_pyLower (REInv_BLOCKLIST p hp)]; exact hsrch⟩
    · exact ⟨p, Or.inr (Or.inl hp), hpat, hsrch, by rw [reSearch_pyLower (REInv_SLUR p hp)]; exact hsrch⟩
    · exact ⟨p, Or.inr (Or.inr hp), hpat, hsrch, by rw [reSearch_pyLower (REInv_WATCHLIST p hp)]; exact hsrch⟩
  · exact rule_hit_nodup (by decide)
  · exact rule_hit_nodup (by decide)
  · exact rule_hit_nodup (by decide)
  · rcases rule_matches_cases text actor with hca | hca
    · exact ⟨rule_hit text.toList WATCHLIST_REGEX, Or.inl rfl, hca⟩
    · refine ⟨[], Or.inr rfl, ?_⟩
      rw [hca, List.append_nil]
      rfl

lemma tox_taxhike : naive_toxicity_score "tax hike" = 0 := by
  unfold naive_toxicity_score
  rw [if_neg (by decide), if_neg (by decide), if_neg (by decide),
      if_neg (by decide), if_neg (by decide)]
  rw [show (0 : ℚ) + 0 + 0 + 0 + 0 = 0 by norm_num,
      min_eq_left (by norm_num : (0 : ℚ) ≤ 1)]

/-- C7 counterexample: the text tax hike has only watchlist matches and
toxicity below 0.40, yet a whitelisted actor gets ALLOW rather than
REVIEW, so the claim fails for whitelisted actors. -/
theorem C7_counterexample :
    (rule_hit "tax hike".toList BLOCKLIST_REGEX = [] ∧
     rule_hit "tax hike".toList SLUR_PATTERNS = [] ∧
     rule_hit "tax hike".toList WATCHLIST_REGEX ≠ [] ∧
     naive_toxicity_score "tax hike" < 0.40) ∧
    (decide "tax hike"
        { user_id := none, is_new_account := none, is_whitelisted := some true }).action
      ≠ Action.REVIEW := by
  constructor
  · refine ⟨by decide, by decide, by decide, ?_⟩
    rw [tox_taxhike]
    norm_num
  · decide

/-- C7 as amended: for a non-whitelisted actor, a text whose only
pattern matches are watchlist matches and whose toxicity is below 0.40
gets REVIEW. -/
theorem C7_watch_only_review (text : String) (actor : ActorMeta)
    (hw : actor.is_whitelisted ≠ some true)
    (hb : rule_hit text.toList BLOCKLIST_REGEX = [])
    (hs : rule_hit text.toList SLUR_PATTERNS = [])
    (hwm : rule_hit text.toList WATCHLIST_REGEX ≠ [])
    (ht : naive_toxicity_score text < 0.40) :
    (decide text actor).action = Action.REVIEW := by
  have hmb : matches_block text = [] := by
    unfold matches_block
    rw [hb, hs]
    rfl
  have hc0 : hard_delete_cond text = false := hard_delete_false_of_block_nil hmb
  have hc : ¬ hard_delete_cond text = true := by
    rw [hc0]
    exact Bool.false_ne_true
  have ht9 : ¬ (0.90 : ℚ) ≤ naive_toxicity_score text := by
    intro hge
    linarith
  have hh : ¬ ((0.70 : ℚ) ≤ naive_toxicity_score text ∨ matches_block text ≠ []) := by
    rintro (h7 | hmbne)
    · linarith
    · exact hmbne hmb
  have hr : (0.40 : ℚ) ≤ naive_toxicity_score text ∨ matches_watch text ≠ [] := by
    refine Or.inr ?_
    show rule_hit text.toList WATCHLIST_REGEX ≠ []
    exact hwm
  rw [decide_review hw hc ht9 hh hr]

theorem C7_witness :
    ((({} : ActorMeta).is_whitelisted ≠ some true) ∧
     rule_hit "tax hike".toList WATCHLIST_REGEX ≠ [] ∧
     naive_toxicity_score "tax hike" < 0.40) ∧
    (decide "tax hike" {}).action = Action.REVIEW :=
  ⟨⟨by decide, by decide, by rw [tox_taxhike]; norm_num⟩,
   C7_watch_only_review "tax hike" {} (by decide) (by decide) (by decide) (by decide)
     (by rw [tox_taxhike]; norm_num)⟩

/-- C8: in the model, a text with no pattern matches in any set, length
at most 200, at most 20 uppercase characters and no emphasis
punctuation gets ALLOW with score 0 and no rule matches, for every
actor.  The shipped code never reaches this point: the two
SLUR_PATTERNS sources are rejected by `re.compile` at import time (see
the header note), which contradicts the claim that no input raises. -/
theorem C8_quiet_text_allow (text : String) (actor : ActorMeta)
    (hb : rule_hit text.toList BLOCKLIST_REGEX = [])
    (hs : rule_hit text.toList SLUR_PATTERNS = [])
    (hw : rule_hit text.toList WATCHLIST_REGEX = [])
    (hlen : ¬ 200 < text.length)
    (hup : ¬ 20 < (text.toList.filter pyIsUpper).length)
    (hex : ¬ (hasSubstr "!!!".toList text.toList || hasSubstr "???".toList text.toList) = true) :
    decide text actor = { action := Action.ALLOW, score := 0, rule_matches := [] } := by
  have hmb : matches_block text = [] := by
    unfold matches_block
    rw [hb, hs]
    rfl
  have hmw : matches_watch text = [] := hw
  have htox : naive_toxicity_score text = 0 := by
    unfold naive_toxicity_score
    rw [rule_hit_pyLower REInv_SLUR, rule_hit_pyLower REInv_BLOCKLIST]
    rw [if_neg hlen, if_neg hup, if_neg hex,
        if_neg (fun hne => hne hs), if_neg (fun hne => hne hb)]
    rw [show (0 : ℚ) + 0 + 0 + 0 + 0 = 0 by norm_num,
        min_eq_left (by norm_num : (0 : ℚ) ≤ 1)]
  by_cases ha : actor.is_whitelisted = some true
  · rw [decide_whitelisted ha, hmb, hmw, htox]
    rw [if_neg (fun hne => hne rfl)]
    rfl
  · have hc : ¬ hard_delete_cond text = true := by
      rw [hard_delete_false_of_block_nil hmb]
      exact Bool.false_ne_true
    have ht9 : ¬ (0.90 : ℚ) ≤ naive_toxicity_score text := by
      rw [htox]
      norm_num
    have hh : ¬ ((0.70 : ℚ) ≤ naive_toxicity_score text ∨ matches_block text ≠ []) := by
      rintro (h7 | hmbne)
      · rw [htox] at h7
        norm_num at h7
      · exact hmbne hmb
    have hr : ¬ ((0.40 : ℚ) ≤ naive_toxicity_score text ∨ matches_watch text ≠ []) := by
      rintro (h4 | hmwne)
      · rw [htox] at h4
        norm_num at h4
      · exact hmwne hmw
    rw [decide_allow ha hc ht9 hh hr, hmb, hmw, htox]
    rfl

theorem C8_witness :
    (rule_hit "".toList BLOCKLIST_REGEX = [] ∧
     rule_hit "".toList SLUR_PATTERNS = [] ∧
     rule_hit "".toList WATCHLIST_REGEX = [] ∧
     ¬ 200 < "".length ∧
     ¬ 20 < ("".toList.filter pyIsUpper).length) ∧
    decide "" {} = { action := Action.ALLOW, score := 0, rule_matches := [] } :=
  ⟨⟨by decide, by decide, by decide, by decide, by decide⟩,
   C8_quiet_text_allow "" {} (by decide) (by decide) (by decide) (by decide)
     (by decide) (by decide)⟩

/-- C9: the hard-delete override searches the matched labels for
violent terms, and the labels of the two violent-threat blocklist rules
contain kill and hang, so any text matching either rule from a
non-whitelisted actor is DELETEd, including matches through
alternatives absent from the term list such as stone or beat. -/
theorem C9_violent_label_delete (text : String) (actor : ActorMeta)
    (hw : actor.is_whitelisted ≠ some true)
    (h : reSearch blockPat1.re text.toList = true ∨
         reSearch blockPat2.re text.toList = true) :
    (decide text actor).action = Action.DELETE := by
  refine (delete_of_hard_cond hw ?_).1
  rcases h with h1 | h2
  · exact hard_delete_of_label
      (List.mem_append.mpr (Or.inl (label_mem_of_search blockPat1_mem h1)))
      term_search_blockPat1
  · exact hard_delete_of_label
      (List.mem_append.mpr (Or.inl (label_mem_of_search blockPat2_mem h2)))
      term_search_blockPat2

theorem C9_witness :
    (reSearch blockPat1.re "stone him".toList = true ∧
     (decide "stone him" {}).action = Action.DELETE) ∧
    (reSearch blockPat1.re "beat them".toList = true ∧
     (decide "beat them" {}).action = Action.DELETE) :=
  ⟨⟨by decide, C9_violent_label_delete "stone him" {} (by decide) (Or.inl (by decide))⟩,
   ⟨by decide, C9_violent_label_delete "beat them" {} (by decide) (Or.inl (by decide))⟩⟩

/-- C10: the returned score is always at least the ladder floor of the
returned action: 0.4 for REVIEW, 0.7 for HIDE, 0.9 for DELETE,
including the whitelisted REVIEW branch whose raw toxicity is at least
0.4 because a blocklist or slur hit adds at least 0.4. -/
theorem C10_score_floor (text : String) (actor : ActorMeta) :
    ladder_floor (decide text actor).action ≤ (decide text actor).score := by
  by_cases hw : actor.is_whitelisted = some true
  · rw [decide_whitelisted hw]
    by_cases hm : matches_block text ≠ []
    · show ladder_floor (if matches_block text ≠ [] then Action.REVIEW else Action.ALLOW)
          ≤ naive_toxicity_score text
      rw [if_pos hm]
      exact tox_ge_of_matches_block hm
    · show ladder_floor (if matches_block text ≠ [] then Action.REVIEW else Action.ALLOW)
          ≤ naive_toxicity_score text
      rw [if_neg hm]
      exact tox_nonneg text
  · by_cases hc : hard_delete_cond text = true
    · rw [decide_override hw hc]
      exact le_max_left _ _
    · by_cases ht : (0.90 : ℚ) ≤ naive_toxicity_score text
      · rw [decide_tox_delete hw hc ht]
        show (0.9 : ℚ) ≤ naive_toxicity_score text
        have h99 : (0.9 : ℚ) = 0.90 := by norm_num
        rw [h99]
        exact ht
      · by_cases hh : (0.70 : ℚ) ≤ naive_toxicity_score text ∨ matches_block text ≠ []
        · rw [decide_hide hw hc ht hh]
          exact le_max_left _ _
        · by_cases hr : (0.40 : ℚ) ≤ naive_toxicity_score text ∨ matches_watch text ≠ []
          · rw [decide_review hw hc ht hh hr]
            exact le_max_left _ _
          · rw [decide_allow hw hc ht hh hr]
            exact tox_nonneg text

end Main

